import Mathlib

/-!
Verification development for the Firecrawl-Lite renderer pool and crawl
orchestration layer.

The JavaScript sources are shallowly embedded as pure Lean functions:

* `BrowserPool` (src/unnamed/part_003, class `BrowserPool`) becomes the
  `PoolState` structure together with the state transformers `initialize`,
  `tryGetBrowser` / `getBrowserSeq`, `releaseBrowser`,
  `handleBrowserDisconnect` and `shutdown`.  Browser handles are modelled
  as natural-number identities; the JavaScript array `availableBrowsers`
  is a `List Nat` (with `pop` taking the last element), the JavaScript
  `Set busyBrowsers` is a `Finset Nat`.
* `CrawlerService` (src/firecrawl-lite/src/services/crawler.service.js)
  becomes `crawlUrl`, `crawlMultipleUrls`, `isValidUrl`, `updateStats`
  and `serviceHealthCheck`.  Outcomes of external effects (page creation,
  navigation, extraction, conversion, connectivity) are supplied by a
  `CrawlEnv` record, and the resources opened / closed / released by one
  invocation are recorded in a `CrawlLog`.
* `ContentExtractor.extractWithRetry`
  (src/firecrawl-lite/src/core/extractor.js) becomes `extractWithRetry`,
  which also records the number of attempts made and the accumulated
  retry delay in milliseconds.

Whenever several asynchronous mutations of the pool can interleave, the
embedding exposes one event per synchronous mutation block of the source
(`PoolEvent` / `stepEvent`); event traces are constrained by `WfTrace`,
which records the one fact the runtime does guarantee — a replacement
browser created by `createBrowser` is a fresh object — while
`TrackedTrace` names the stronger condition (each disconnect event
targets a still-tracked browser) that the runtime does not guarantee and
under which alone the capacity bound survives.  The uncancelled polling
chain left behind by a timed-out `getBrowser` is modelled by
`orphanedPollFire`.
-/

namespace FirecrawlLite

/-- The running counters of `BrowserPool.stats` (part_003 lines 19-24).
`activeRequests` is an `Int` because the JavaScript code decrements it. -/
structure PoolStats where
  totalRequests : Nat
  activeRequests : Int
  restarts : Nat
  errors : Nat
deriving DecidableEq, Repr

/-- The mutable state of the `BrowserPool` class (part_003 lines 4-25).
Browser handles are natural-number identities; `browsers` and
`availableBrowsers` are JavaScript arrays (ordered, `pop` takes the last
element) and `busyBrowsers` is a JavaScript `Set`. -/
structure PoolState where
  poolSize : Nat
  browsers : List Nat
  availableBrowsers : List Nat
  busyBrowsers : Finset Nat
  isInitialized : Bool
  isShuttingDown : Bool
  stats : PoolStats
deriving DecidableEq

/-- One iteration of the `initialize` loop (part_003 lines 32-42): on a
successful launch the browser is pushed onto both `browsers` and
`availableBrowsers`; a launch failure only increments the error counter. -/
def initStep (s : PoolState) (launch : Option Nat) : PoolState :=
  match launch with
  | some b =>
      { s with browsers := s.browsers ++ [b],
               availableBrowsers := s.availableBrowsers ++ [b] }
  | none =>
      { s with stats := { s.stats with errors := s.stats.errors + 1 } }

/-- `BrowserPool.initialize` (part_003 lines 27-47).  `launches` lists the
outcome of each of the `poolSize` launch attempts.  Idempotent: a second
call returns the state unchanged. -/
def poolInit (launches : List (Option Nat)) (s : PoolState) : PoolState :=
  if s.isInitialized then s
  else { launches.foldl initStep s with isInitialized := true }

/-- The successful branch of `tryGetBrowser` inside `getBrowser`
(part_003 lines 84-95): `availableBrowsers.pop()` takes the last element,
which is added to `busyBrowsers`, and the active/total request counters
are incremented.  Returns `none` when no browser is available. -/
def tryGetBrowser (s : PoolState) : Option (Nat × PoolState) :=
  match s.availableBrowsers.getLast? with
  | none => none
  | some b =>
      some (b,
        { s with
            availableBrowsers := s.availableBrowsers.dropLast,
            busyBrowsers := insert b s.busyBrowsers,
            stats := { s.stats with
                         activeRequests := s.stats.activeRequests + 1,
                         totalRequests := s.stats.totalRequests + 1 } })

/-- The value with which the `BrowserPool.getBrowser` promise (part_003
lines 70-99) settles, for an initialized pool under sequential semantics:
the shutting-down check throws first; otherwise, if no browser is
available now, no other task can free one while this invocation runs and
the promise settles with the timeout rejection.  The rejection timer does
NOT cancel the 100 ms polling chain: the orphaned poll keeps re-arming,
and its later effect on the pool — popping a subsequently freed browser
into the busy set although its `resolve()` no-ops on the settled
promise — is modelled separately by `orphanedPollFire` (the time-indexed
polling inside the window is modelled by `acquirePoll`). -/
def getBrowserSeq (s : PoolState) : Except String (Nat × PoolState) :=
  if s.isShuttingDown then .error "Browser pool is shutting down"
  else
    match tryGetBrowser s with
    | some r => .ok r
    | none => .error "Timeout waiting for available browser"

/-- The residual effect of a timed-out `getBrowser` call (part_003 lines
79-98).  The rejection only settles the promise; the orphaned
`tryGetBrowser` chain keeps re-arming every 100 ms, and at the first
later instant at which the available list is nonempty it pops the last
browser into the busy set and increments the active/total request
counters; the `clearTimeout` and `resolve(browser)` it then runs are
no-ops on the already-rejected promise, so the popped browser is handed
to no caller — it sits in the busy set with no holder and is never
released. -/
def orphanedPollFire (s : PoolState) : PoolState :=
  match tryGetBrowser s with
  | some (_, s1) => s1
  | none => s

/-- `BrowserPool.releaseBrowser` (part_003 lines 122-131).  `connected`
gives the value of `browser.isConnected()` at release time. -/
def releaseBrowser (connected : Nat → Bool) (b : Nat) (s : PoolState) :
    PoolState :=
  if b ∈ s.busyBrowsers then
    let s1 := { s with
                  busyBrowsers := s.busyBrowsers.erase b,
                  stats := { s.stats with
                               activeRequests := s.stats.activeRequests - 1 } }
    if ¬ s.isShuttingDown ∧ connected b then
      { s1 with availableBrowsers := s1.availableBrowsers ++ [b] }
    else s1
  else s

/-- `BrowserPool.handleBrowserDisconnect` (part_003 lines 133-160).
`replacement` is the outcome of the `createBrowser()` call in the restart
branch (`none` models a launch failure, which the code catches). -/
def handleBrowserDisconnect (b : Nat) (replacement : Option Nat)
    (s : PoolState) : PoolState :=
  let s1 := { s with
                stats := { s.stats with errors := s.stats.errors + 1 },
                browsers := s.browsers.erase b,
                availableBrowsers := s.availableBrowsers.erase b,
                busyBrowsers := s.busyBrowsers.erase b }
  if ¬ s1.isShuttingDown then
    match replacement with
    | some nb =>
        { s1 with
            browsers := s1.browsers ++ [nb],
            availableBrowsers := s1.availableBrowsers ++ [nb],
            stats := { s1.stats with restarts := s1.stats.restarts + 1 } }
    | none => s1
  else s1

/-- Result of `BrowserPool.shutdown`: the final pool state and the list of
browsers on which `browser.close()` was called. -/
structure ShutdownResult where
  state : PoolState
  closedBrowsers : List Nat
deriving DecidableEq

/-- `BrowserPool.shutdown` (part_003 lines 190-210).  Re-entrant calls are
no-ops; otherwise the flag is set, `close()` is called on every browser
(`closeOk` gives each close's outcome, which the code ignores beyond
logging), and all internal collections are cleared. -/
def shutdown (closeOk : Nat → Bool) (s : PoolState) : ShutdownResult :=
  if s.isShuttingDown then ⟨s, []⟩
  else
    ⟨{ s with
         isShuttingDown := true,
         browsers := [],
         availableBrowsers := [],
         busyBrowsers := ∅ },
     s.browsers⟩

/-- One atomic (synchronous) mutation block of the pool, used to model
interleavings of concurrent pool operations.  `disconnect` covers the
whole of `handleBrowserDisconnect`; `setShutdown` and `clearAll` are the
two synchronous halves of `shutdown` (separated by the awaited closes). -/
inductive PoolEvent where
  | acquire : PoolEvent
  | release (connected : Nat → Bool) (b : Nat) : PoolEvent
  | disconnect (b : Nat) (replacement : Option Nat) : PoolEvent
  | setShutdown : PoolEvent
  | clearAll : PoolEvent

/-- The state transformer of one pool event.  A failed acquire (shutting
down, or no browser available within the timeout) leaves the state
unchanged. -/
def stepEvent (s : PoolState) : PoolEvent → PoolState
  | .acquire =>
      match getBrowserSeq s with
      | .ok (_, s1) => s1
      | .error _ => s
  | .release connected b => releaseBrowser connected b s
  | .disconnect b replacement => handleBrowserDisconnect b replacement s
  | .setShutdown => { s with isShuttingDown := true }
  | .clearAll =>
      { s with browsers := [], availableBrowsers := [], busyBrowsers := ∅ }

/-- The runtime-guaranteed side condition of an event: a replacement
browser created by `createBrowser` is a fresh object, distinct from every
tracked browser.  No membership condition on the disconnected browser is
assumed: `handleBrowserDisconnect` can run for a browser the pool no
longer tracks — `healthCheck` (part_003 line 177) routes a failing
browser through the handler, and the browser's own `disconnected` event
can re-invoke it afterwards. -/
def wfEvent (s : PoolState) : PoolEvent → Prop
  | .disconnect _ replacement =>
      ∀ x, replacement = some x → x ∉ s.browsers
  | _ => True

/-- A well-formed event trace from a given state. -/
inductive WfTrace : PoolState → List PoolEvent → Prop where
  | nil (s : PoolState) : WfTrace s []
  | cons (s : PoolState) (e : PoolEvent) (es : List PoolEvent)
      (hwf : wfEvent s e) (hrest : WfTrace (stepEvent s e) es) :
      WfTrace s (e :: es)

/-- The additional per-event condition under which the capacity bound is
preserved: every disconnect event targets a browser the pool still
tracks, i.e. the crash handler runs at most once per tracked instance.
This is NOT guaranteed by the runtime — the replacement branch of
`handleBrowserDisconnect` (part_003 lines 149-159) does not re-check
membership, so a handler invocation for an already-removed browser adds
an unmatched replacement (see the capacity counterexample). -/
def trackedEvent (s : PoolState) : PoolEvent → Prop
  | .disconnect b _ => b ∈ s.browsers
  | _ => True

/-- A trace all of whose disconnect events target tracked browsers. -/
inductive TrackedTrace : PoolState → List PoolEvent → Prop where
  | nil (s : PoolState) : TrackedTrace s []
  | cons (s : PoolState) (e : PoolEvent) (es : List PoolEvent)
      (htr : trackedEvent s e) (hrest : TrackedTrace (stepEvent s e) es) :
      TrackedTrace s (e :: es)

/-- Folding a trace of events over a state. -/
def runEvents (s : PoolState) : List PoolEvent → PoolState
  | [] => s
  | e :: es => runEvents (stepEvent s e) es

/-- The pool partition invariant (spec section 3 and section 8): the
available list and the busy set are duplicate-free, disjoint, both
contained in the tracked-browser list (so every instance is in exactly
one of available / busy / removed), and the number of tracked browsers
never exceeds the configured capacity. -/
structure PoolInv (s : PoolState) : Prop where
  nodupBrowsers : s.browsers.Nodup
  nodupAvailable : s.availableBrowsers.Nodup
  availSubset : ∀ b ∈ s.availableBrowsers, b ∈ s.browsers
  busySubset : ∀ b ∈ s.busyBrowsers, b ∈ s.browsers
  availBusyDisjoint : ∀ b ∈ s.availableBrowsers, b ∉ s.busyBrowsers
  capacity : s.browsers.length ≤ s.poolSize

/-- The capacity-free part of the pool invariant: the partition and
disjointness facts alone.  Unlike the capacity bound, these hold along
every well-formed trace, including handler invocations for untracked
browsers. -/
structure PoolPartition (s : PoolState) : Prop where
  nodupBrowsers : s.browsers.Nodup
  nodupAvailable : s.availableBrowsers.Nodup
  availSubset : ∀ b ∈ s.availableBrowsers, b ∈ s.browsers
  busySubset : ∀ b ∈ s.busyBrowsers, b ∈ s.browsers
  availBusyDisjoint : ∀ b ∈ s.availableBrowsers, b ∉ s.busyBrowsers

/-- A full pool invariant contains its partition part. -/
theorem PoolInv.toPartition {s : PoolState} (h : PoolInv s) :
    PoolPartition s :=
  ⟨h.nodupBrowsers, h.nodupAvailable, h.availSubset, h.busySubset,
   h.availBusyDisjoint⟩

/-! ### Time-indexed model of the polling acquire loop

`getBrowser` (part_003 lines 79-98) registers a rejection at `timeout`
milliseconds and re-checks availability every 100 ms.  `acquirePoll`
models the race: `availAt t` says whether a browser is available at the
poll occurring `100 * t` ms after the call; the loop performs one poll
per 100 ms tick that falls strictly inside the timeout window, and if
none of them sees an available browser the promise settles with the
timeout rejection. -/

/-- The polling loop with `ticks` polls remaining: resolves with the
index of the first successful poll, or rejects with the timeout error
once the deadline passes. -/
def acquirePoll (availAt : Nat → Bool) : Nat → Except String Nat
  | 0 => .error "Timeout waiting for available browser"
  | ticks + 1 =>
      if availAt 0 then .ok 0
      else (acquirePoll (fun t => availAt (t + 1)) ticks).map (· + 1)

/-- The settled outcome of `getBrowser`'s promise for an initialized,
non-shutting-down pool: polls happen at ticks `0, 1, ...` (every 100 ms)
and the rejection timer fires after `timeoutMs` ms, so exactly the ticks
`t` with `100 * t < timeoutMs` can resolve the promise. -/
def getBrowserPoll (availAt : Nat → Bool) (timeoutMs : Nat) :
    Except String Nat :=
  acquirePoll availAt ((timeoutMs + 99) / 100)

/-! ### URL validation -/

/-- Characters allowed after the first character of a URL scheme. -/
def isSchemeChar (c : Char) : Bool :=
  c.isAlphanum || c = '+' || c = '-' || c = '.'

/-- ASCII lower-casing of one character (the scheme normalization the
platform URL parser applies before exposing `urlObj.protocol`). -/
def lowerChar (c : Char) : Char :=
  if c.isUpper then Char.ofNat (c.toNat + 32) else c

/-- Modelled from the spec: the scheme extracted by the platform URL
parser (`new URL(url)`, external to the repository), which `isValidUrl`
consults through `urlObj.protocol`.  Returns the lower-cased scheme
characters — the characters before the first colon when they form a
well-formed scheme — and `none` when the string cannot begin a
well-formed absolute URL, in which case `new URL` throws.  Host-shape
validation is elided: the claims only depend on the protocol check. -/
def schemeOf (url : String) : Option (List Char) :=
  let cs := url.toList
  let pre := cs.takeWhile (fun c => c ≠ ':')
  match pre with
  | [] => none
  | c :: rest =>
      if pre.length < cs.length ∧ c.isAlpha ∧ rest.all isSchemeChar then
        some (pre.map lowerChar)
      else none

/-- `CrawlerService.isValidUrl` (crawler.service.js lines 215-222): parse
the URL and accept exactly the `http:` / `https:` protocols. -/
def isValidUrl (url : String) : Bool :=
  match schemeOf url with
  | some s => s = "http".toList || s = "https".toList
  | none => false

/-! ### Extraction retry (`ContentExtractor.extractWithRetry`) -/

/-- Extracted page content (the fields of the object produced by the
extraction capability that the crawl pipeline reads). -/
structure ExtractedContent where
  title : String
  content : String
deriving DecidableEq, Repr

/-- The conversion capability's result fields read by the pipeline. -/
structure MarkdownResult where
  markdown : String
  wordCount : Nat
  characterCount : Nat
deriving DecidableEq, Repr

/-- The value computed by `extractWithRetry` together with the number of
attempts actually made and the total retry delay (ms) slept between
attempts. -/
structure RetryTrace (α : Type) where
  result : Except String α
  attemptsMade : Nat
  totalDelay : Nat

/-- The loop body of `ContentExtractor.extractWithRetry` (extractor.js
lines 256-268): `attempt` is the current 1-based attempt number,
`remaining` the number of attempts left, `last` the error of the previous
attempt (the JavaScript `lastError`, initially undefined).  After a
failed attempt that is not the final one, the code sleeps
`1000 * attempt` ms. -/
def retryLoop (f : Nat → Except String α) :
    Nat → Nat → String → RetryTrace α
  | _, 0, last => ⟨.error last, 0, 0⟩
  | attempt, remaining + 1, _ =>
      match f attempt with
      | .ok a => ⟨.ok a, 1, 0⟩
      | .error e =>
          if remaining = 0 then ⟨.error e, 1, 0⟩
          else
            let rest := retryLoop f (attempt + 1) remaining e
            ⟨rest.result, rest.attemptsMade + 1,
             rest.totalDelay + 1000 * attempt⟩

/-- `ContentExtractor.extractWithRetry` (extractor.js lines 253-271).
`f k` is the outcome of the k-th (1-based) call to `extractContent`. -/
def extractWithRetry (f : Nat → Except String α) (maxRetries : Nat) :
    RetryTrace α :=
  retryLoop f 1 maxRetries "undefined"

/-! ### The single-URL crawl pipeline (`CrawlerService.crawlUrl`) -/

/-- Outcome of `browserPool.getPage(browser)` (part_003 lines 101-120),
which creates a context, then a page, then sets extra headers; a throw
partway leaves the earlier resources created but unreferenced by the
caller.  Context and page handles are natural-number identities. -/
inductive PageOutcome where
  | ctxFail : PageOutcome
  | pageFail (ctx : Nat) : PageOutcome
  | headersFail (ctx pg : Nat) : PageOutcome
  | opened (ctx pg : Nat) : PageOutcome
deriving DecidableEq, Repr

/-- The navigation response fields read by `crawlUrl` (`response.ok()`,
`response.status()`). -/
structure NavResponse where
  respOk : Bool
  status : Nat
deriving DecidableEq, Repr

/-- Outcomes of all external effects during one `crawlUrl` invocation,
plus the wall-clock duration (ms) of each stage.  `extractOutcome k` is
the result of the k-th extraction attempt; `connected b` is
`b.isConnected()` at release time. -/
structure CrawlEnv where
  pageOutcome : PageOutcome
  configOk : Bool
  navOutcome : Option NavResponse
  extractOutcome : Nat → Except String ExtractedContent
  convertOutcome : Except String MarkdownResult
  connected : Nat → Bool
  tNav : Nat
  tAttempt : Nat
  tConvert : Nat

/-- Resource ledger of one `crawlUrl` invocation: which browsers were
acquired from / released to the pool, which contexts and pages were
opened and closed, and which URLs were navigated to. -/
structure CrawlLog where
  acquired : List Nat
  openedContexts : List Nat
  openedPages : List Nat
  closedContexts : List Nat
  closedPages : List Nat
  released : List Nat
  navigations : List String
deriving DecidableEq, Repr

/-- The empty ledger. -/
def CrawlLog.empty : CrawlLog := ⟨[], [], [], [], [], [], []⟩

/-- The orchestrator's running statistics (`CrawlerService.stats`,
crawler.service.js lines 18-24). -/
structure ServiceStats where
  totalRequests : Nat
  successfulRequests : Nat
  failedRequests : Nat
  totalProcessingTime : Nat
  averageProcessingTime : Nat
deriving DecidableEq, Repr

/-- `CrawlerService.updateStats` (crawler.service.js lines 224-233);
`Math.round` on a nonnegative rational `a / b` is `(2a + b) / (2b)`
rounded down (the `totalRequests = 0` guard stands in for the `NaN` the
JavaScript produces when dividing by zero, a case `crawlUrl` never
reaches because it increments `totalRequests` first). -/
def updateStats (st : ServiceStats) (processingTime : Nat)
    (succeeded : Bool) : ServiceStats :=
  let total := st.totalProcessingTime + processingTime
  let avg := if st.totalRequests = 0 then 0
             else (2 * total + st.totalRequests) / (2 * st.totalRequests)
  let st := { st with totalProcessingTime := total,
                      averageProcessingTime := avg }
  if succeeded then
    { st with successfulRequests := st.successfulRequests + 1 }
  else
    { st with failedRequests := st.failedRequests + 1 }

/-- The mixed result type of `crawlUrl`: a tagged success (with the data
fields the claims mention) or a tagged failure (error message, offending
URL, elapsed time). -/
inductive CrawlResult where
  | success (url title markdown : String) (processingTime : Nat) :
      CrawlResult
  | failure (message url : String) (processingTime : Nat) : CrawlResult
deriving DecidableEq, Repr

/-- The `success` tag of a `CrawlResult`. -/
def CrawlResult.isSuccess : CrawlResult → Bool
  | .success _ _ _ _ => true
  | .failure _ _ _ => false

/-- The working state of one `crawlUrl` invocation: the pool, the local
`browser` / `page` / `context` variables (null until assigned), the
resource ledger, and the elapsed wall-clock time. -/
structure TryState where
  pool : PoolState
  browser : Option Nat
  page : Option Nat
  context : Option Nat
  log : CrawlLog
  elapsed : Nat

/-- The `try` block of `crawlUrl` (crawler.service.js lines 38-102):
validation, pool acquire, page creation, page configuration, navigation,
extraction with retry, conversion.  Returns the thrown error or the
extracted+converted payload, together with the working state at the point
the block exits. -/
def crawlTry (url : String) (maxRetries : Nat) (env : CrawlEnv)
    (t : TryState) :
    Except String (ExtractedContent × MarkdownResult) × TryState :=
  if ¬ isValidUrl url then (.error "Invalid URL provided", t)
  else
    match getBrowserSeq t.pool with
    | .error e => (.error e, t)
    | .ok (b, pool1) =>
      let t := { t with pool := pool1, browser := some b,
                        log := { t.log with acquired := t.log.acquired ++ [b] } }
      match env.pageOutcome with
      | .ctxFail => (.error "Failed to create browser context", t)
      | .pageFail ctx =>
          (.error "Failed to create page",
           { t with log := { t.log with
                               openedContexts := t.log.openedContexts ++ [ctx] } })
      | .headersFail ctx pg =>
          (.error "Failed to set extra headers",
           { t with log := { t.log with
                               openedContexts := t.log.openedContexts ++ [ctx],
                               openedPages := t.log.openedPages ++ [pg] } })
      | .opened ctx pg =>
        let t := { t with page := some pg, context := some ctx,
                          log := { t.log with
                                     openedContexts := t.log.openedContexts ++ [ctx],
                                     openedPages := t.log.openedPages ++ [pg] } }
        if ¬ env.configOk then (.error "Failed to configure page", t)
        else
          let t := { t with log := { t.log with
                                       navigations := t.log.navigations ++ [url] },
                            elapsed := t.elapsed + env.tNav }
          match env.navOutcome with
          | none => (.error "Navigation timeout exceeded", t)
          | some resp =>
            if ¬ resp.respOk then
              (.error ("Navigation failed with status: " ++ toString resp.status), t)
            else
              let r := extractWithRetry env.extractOutcome maxRetries
              let t := { t with elapsed := t.elapsed +
                                  r.attemptsMade * env.tAttempt + r.totalDelay }
              match r.result with
              | .error e => (.error e, t)
              | .ok content =>
                let t := { t with elapsed := t.elapsed + env.tConvert }
                match env.convertOutcome with
                | .error e => (.error e, t)
                | .ok md => (.ok (content, md), t)

/-- Everything observable about one `crawlUrl` invocation: the returned
result, the pool state after the `finally` block, the orchestrator
statistics, and the resource ledger. -/
structure CrawlOutput where
  result : CrawlResult
  pool : PoolState
  svc : ServiceStats
  log : CrawlLog

/-- `CrawlerService.crawlUrl` (crawler.service.js lines 32-132): bump
`totalRequests`, run the `try` block, then run the `finally` block —
close the page and the context when the local variables were assigned
(close errors are caught and logged) and release the browser when one was
acquired — and finally build the tagged result and update the statistics
(the `catch` block). -/
def crawlUrl (url : String) (maxRetries : Nat) (env : CrawlEnv)
    (pool : PoolState) (svc : ServiceStats) : CrawlOutput :=
  let svc := { svc with totalRequests := svc.totalRequests + 1 }
  let t0 : TryState := ⟨pool, none, none, none, CrawlLog.empty, 0⟩
  let (res, t) := crawlTry url maxRetries env t0
  let t := match t.page with
    | some pg => { t with log := { t.log with
                                     closedPages := t.log.closedPages ++ [pg] } }
    | none => t
  let t := match t.context with
    | some ctx => { t with log := { t.log with
                                      closedContexts := t.log.closedContexts ++ [ctx] } }
    | none => t
  let t := match t.browser with
    | some b => { t with pool := releaseBrowser env.connected b t.pool,
                         log := { t.log with released := t.log.released ++ [b] } }
    | none => t
  match res with
  | .ok (content, md) =>
      ⟨.success url content.title md.markdown t.elapsed, t.pool,
       updateStats svc t.elapsed true, t.log⟩
  | .error e =>
      ⟨.failure e url t.elapsed, t.pool,
       updateStats svc t.elapsed false, t.log⟩

/-! ### The batch scheduler (`CrawlerService.crawlMultipleUrls`) -/

/-- The batch loop of `crawlMultipleUrls` (crawler.service.js lines
182-196), with the list length as structural fuel: take a wave of `c`
URLs, crawl them all (`Promise.all` preserves order), then — if URLs
remain — pause once before the next wave.  Returns the concatenated
results, the waves, and the number of inter-wave pauses. -/
def batchLoop (crawl : String → CrawlResult) (c : Nat) :
    Nat → List String → List CrawlResult × List (List String) × Nat
  | 0, _ => ([], [], 0)
  | _, [] => ([], [], 0)
  | fuel + 1, l =>
      let wave := l.take c
      let rest := l.drop c
      let (rs, ws, ps) := batchLoop crawl c fuel rest
      (wave.map crawl ++ rs, wave :: ws,
       (if rest.isEmpty then 0 else 1) + ps)

/-- The observable outcome of `crawlMultipleUrls`: the per-URL results,
the waves in which they were processed, the number of inter-wave pauses,
and the summary counters. -/
structure BatchOutput where
  results : List CrawlResult
  waves : List (List String)
  pauses : Nat
  summaryTotal : Nat
  summarySuccessful : Nat
  summaryFailed : Nat
deriving Repr

/-- `CrawlerService.crawlMultipleUrls` (crawler.service.js lines
175-213), abstracted over the per-URL crawl function (which, like
`crawlUrl`, always returns a tagged result and never throws).
`optsConcurrent` is `options.concurrent`; `0` models an absent / falsy
option, which falls back to the service default `1`, and the effective
concurrency is capped at the number of URLs. -/
def crawlMultipleUrls (crawl : String → CrawlResult)
    (optsConcurrent : Nat) (urls : List String) : BatchOutput :=
  let c := min (if optsConcurrent = 0 then 1 else optsConcurrent) urls.length
  let (results, waves, pauses) := batchLoop crawl c urls.length urls
  { results := results, waves := waves, pauses := pauses,
    summaryTotal := urls.length,
    summarySuccessful := (results.filter CrawlResult.isSuccess).length,
    summaryFailed :=
      (results.filter (fun r => ¬ r.isSuccess)).length }

/-! ### Service-level health check -/

/-- The synthetic end-to-end test URL used by
`CrawlerService.healthCheck` (crawler.service.js line 247). -/
def healthCheckTestUrl : String :=
  "data:text/html,<html><body><h1>Health Check</h1></body></html>"

/-- The fields of the health report material to the claims. -/
structure HealthReport where
  status : String
  testCrawl : Bool
deriving DecidableEq, Repr

/-- `CrawlerService.healthCheck` (crawler.service.js lines 244-266): runs
the pool health check (whose pool-state effects are reflected in the
`pool` argument passed here), then a test crawl of the `data:` URL, and
reports `healthy` with the test crawl's success tag; in the embedding no
step throws, so the `unhealthy` catch branch is unreachable. -/
def serviceHealthCheck (env : CrawlEnv) (pool : PoolState)
    (svc : ServiceStats) : HealthReport × CrawlOutput :=
  let out := crawlUrl healthCheckTestUrl 3 env pool svc
  (⟨"healthy", out.result.isSuccess⟩, out)

/-! ## Concrete fixtures for witnesses -/

/-- A small initialized two-browser pool. -/
def poolA : PoolState := ⟨5, [1, 2], [1, 2], ∅, true, false, ⟨0, 0, 0, 0⟩⟩

/-- Fresh orchestrator statistics. -/
def svcA : ServiceStats := ⟨0, 0, 0, 0, 0⟩

/-- Every browser reports itself connected. -/
def connAll : Nat → Bool := fun _ => true

/-- An environment in which every stage succeeds. -/
def envA : CrawlEnv :=
  { pageOutcome := .opened 7 9, configOk := true,
    navOutcome := some ⟨true, 200⟩,
    extractOutcome := fun _ => .ok ⟨"T", "C"⟩,
    convertOutcome := .ok ⟨"md", 2, 10⟩,
    connected := connAll, tNav := 5, tAttempt := 2, tConvert := 1 }

/-- An environment whose extraction capability fails twice and succeeds on
the third attempt. -/
def envRetry : CrawlEnv :=
  { envA with extractOutcome :=
      fun k => if k < 3 then .error "boom" else .ok ⟨"T", "C"⟩ }

/-- An environment in which page creation throws after the browser
context has already been created. -/
def envLeak : CrawlEnv := { envA with pageOutcome := .pageFail 7 }

/-- A pool whose only browser is currently checked out by another
holder, so that an arriving acquire times out: used by the
orphaned-poll scenario of the cleanup counterexample. -/
def poolT : PoolState := ⟨5, [5], [], {5}, true, false, ⟨1, 1, 0, 0⟩⟩

/-! ## Helper lemmas -/

theorem acquirePoll_timeout (ticks : Nat) :
    ∀ availAt : Nat → Bool, (∀ t, t < ticks → availAt t = false) →
      acquirePoll availAt ticks =
        .error "Timeout waiting for available browser" := by
  induction ticks with
  | zero => intro availAt _; rfl
  | succ n ih =>
      intro availAt h
      have h0 : availAt 0 = false := h 0 (Nat.succ_pos n)
      have hrec := ih (fun t => availAt (t + 1))
        (fun t ht => h (t + 1) (Nat.succ_lt_succ ht))
      simp [acquirePoll, h0, hrec, Except.map]

theorem batchLoop_nil (crawl : String → CrawlResult) (c : Nat) :
    ∀ fuel, batchLoop crawl c fuel [] = ([], [], 0) := by
  intro fuel; cases fuel <;> rfl

theorem batchLoop_spec (crawl : String → CrawlResult) (c : Nat)
    (hc : 1 ≤ c) :
    ∀ (fuel : Nat) (l : List String), l.length ≤ fuel →
      (batchLoop crawl c fuel l).1 = l.map crawl ∧
      (batchLoop crawl c fuel l).2.1.flatten = l ∧
      (∀ w ∈ (batchLoop crawl c fuel l).2.1, w ≠ [] ∧ w.length ≤ c) ∧
      (batchLoop crawl c fuel l).2.2 =
        (batchLoop crawl c fuel l).2.1.length - 1 := by
  intro fuel
  induction fuel with
  | zero =>
      intro l hl
      have hnil : l = [] := by cases l <;> simp_all
      subst hnil
      simp [batchLoop]
  | succ n ih =>
      intro l hl
      cases l with
      | nil => simp [batchLoop]
      | cons x xs =>
          have hdrop : ((x :: xs).drop c).length ≤ n := by
            simp only [List.length_drop, List.length_cons]
            simp only [List.length_cons] at hl
            omega
          obtain ⟨h1, h2, h3, h4⟩ := ih ((x :: xs).drop c) hdrop
          rcases hB : batchLoop crawl c n ((x :: xs).drop c) with ⟨rs, ws, ps⟩
          rw [hB] at h1 h2 h3 h4
          dsimp only at h1 h2 h3 h4
          have hsplit :
              batchLoop crawl c (n + 1) (x :: xs) =
                (List.map crawl ((x :: xs).take c) ++ rs,
                 ((x :: xs).take c) :: ws,
                 (if ((x :: xs).drop c).isEmpty then 0 else 1) + ps) := by
            simp only [batchLoop, hB]
          rw [hsplit]
          dsimp only
          refine ⟨?_, ?_, ?_, ?_⟩
          · rw [h1, ← List.map_append, List.take_append_drop]
          · rw [List.flatten_cons, h2, List.take_append_drop]
          · intro w hw
            rcases List.mem_cons.mp hw with h | h
            · subst h
              refine ⟨?_, ?_⟩
              · have hpos : 0 < ((x :: xs).take c).length := by
                  simp only [List.length_take, List.length_cons]
                  omega
                exact List.length_pos.mp hpos
              · simp only [List.length_take]
                exact Nat.min_le_left _ _
            · exact h3 w h
          · by_cases hrest : (x :: xs).drop c = []
            · rw [hrest, batchLoop_nil] at hB
              injection hB with h5 h6
              injection h6 with h6 h7
              subst h5; subst h6; subst h7
              simp [hrest]
            · have hws : ws ≠ [] := by
                intro hwsnil
                rw [hwsnil] at h2
                simp only [List.flatten_nil] at h2
                exact hrest h2.symm
              have hlen : 1 ≤ ws.length := List.length_pos.mpr hws
              rw [if_neg (by simpa [List.isEmpty_iff] using hrest)]
              simp only [List.length_cons]
              omega

theorem retryLoop_attempts_le (f : Nat → Except String α) :
    ∀ (r a : Nat) (last : String),
      (retryLoop f a r last).attemptsMade ≤ r := by
  intro r
  induction r with
  | zero => intro a last; simp [retryLoop]
  | succ n ih =>
      intro a last
      simp only [retryLoop]
      cases f a with
      | ok v => simp
      | error e =>
          by_cases hn : n = 0
          · subst hn; simp
          · simp only [if_neg hn]
            exact Nat.succ_le_succ (ih (a + 1) e)

theorem retryLoop_all_fail (f : Nat → Except String α) (e : Nat → String) :
    ∀ (r a : Nat) (last : String), 1 ≤ r →
      (∀ k, a ≤ k → k < a + r → f k = .error (e k)) →
      retryLoop f a r last =
        ⟨.error (e (a + r - 1)), r,
         ∑ k ∈ Finset.Ico a (a + r - 1), 1000 * k⟩ := by
  intro r
  induction r with
  | zero => intro a last h; omega
  | succ n ih =>
      intro a last _ hf
      have hfa : f a = .error (e a) := hf a le_rfl (by omega)
      by_cases hn : n = 0
      · subst hn
        simp [retryLoop, hfa]
      · have hrec := ih (a + 1) (e a) (by omega)
          (fun k hk1 hk2 => hf k (by omega) (by omega))
        have h5 : a + 1 + n - 1 = a + n := by omega
        have h6 : a + (n + 1) - 1 = a + n := by omega
        rw [h5] at hrec
        simp only [retryLoop, hfa, if_neg hn, hrec, h6]
        have hIco : (∑ k ∈ Finset.Ico (a + 1) (a + n), 1000 * k)
              + 1000 * a
            = ∑ k ∈ Finset.Ico a (a + n), 1000 * k := by
          rw [Finset.sum_eq_sum_Ico_succ_bot (by omega : a < a + n)
                (fun k => 1000 * k)]
          omega
        rw [hIco]

theorem retryLoop_fail_then_ok (f : Nat → Except String α)
    (e : Nat → String) (v : α) :
    ∀ (m a r : Nat) (last : String), m < r →
      (∀ k, a ≤ k → k < a + m → f k = .error (e k)) →
      f (a + m) = .ok v →
      retryLoop f a r last =
        ⟨.ok v, m + 1, ∑ k ∈ Finset.Ico a (a + m), 1000 * k⟩ := by
  intro m
  induction m with
  | zero =>
      intro a r last hr hf hok
      obtain ⟨n, rfl⟩ : ∃ n, r = n + 1 := ⟨r - 1, by omega⟩
      have hfa : f a = .ok v := by simpa using hok
      simp [retryLoop, hfa]
  | succ m ih =>
      intro a r last hr hf hok
      obtain ⟨n, rfl⟩ : ∃ n, r = n + 1 := ⟨r - 1, by omega⟩
      have hfa : f a = .error (e a) := hf a le_rfl (by omega)
      have hn : n ≠ 0 := by omega
      have hok2 : f (a + 1 + m) = .ok v := by
        rw [show a + 1 + m = a + (m + 1) from by omega]
        exact hok
      have hrec := ih (a + 1) n (e a) (by omega)
        (fun k hk1 hk2 => hf k (by omega) (by omega)) hok2
      simp only [retryLoop, hfa, if_neg hn, hrec]
      have hIco : (∑ k ∈ Finset.Ico (a + 1) (a + 1 + m), 1000 * k)
            + 1000 * a
          = ∑ k ∈ Finset.Ico a (a + (m + 1)), 1000 * k := by
        rw [show a + (m + 1) = a + 1 + m from by omega,
            Finset.sum_eq_sum_Ico_succ_bot (by omega : a < a + 1 + m)
              (fun k => 1000 * k)]
        omega
      rw [hIco]

theorem releaseBrowser_of_not_busy (conn : Nat → Bool) (b : Nat)
    (s : PoolState) (h : b ∉ s.busyBrowsers) :
    releaseBrowser conn b s = s := by
  unfold releaseBrowser
  rw [if_neg h]

theorem not_busy_after_release (conn : Nat → Bool) (b : Nat)
    (s : PoolState) : b ∉ (releaseBrowser conn b s).busyBrowsers := by
  by_cases h : b ∈ s.busyBrowsers
  · unfold releaseBrowser
    rw [if_pos h]
    split
    · exact Finset.not_mem_erase b _
    · exact Finset.not_mem_erase b _
  · rw [releaseBrowser_of_not_busy _ _ _ h]
    exact h

theorem hbd_none_eq (b : Nat) (s : PoolState) :
    handleBrowserDisconnect b none s =
      { s with stats := { s.stats with errors := s.stats.errors + 1 },
               browsers := s.browsers.erase b,
               availableBrowsers := s.availableBrowsers.erase b,
               busyBrowsers := s.busyBrowsers.erase b } := by
  simp only [handleBrowserDisconnect]
  split <;> rfl

theorem hbd_eq_of_shutdown (b : Nat) (repl : Option Nat) (s : PoolState)
    (hsd : s.isShuttingDown = true) :
    handleBrowserDisconnect b repl s =
      { s with stats := { s.stats with errors := s.stats.errors + 1 },
               browsers := s.browsers.erase b,
               availableBrowsers := s.availableBrowsers.erase b,
               busyBrowsers := s.busyBrowsers.erase b } := by
  simp [handleBrowserDisconnect, hsd]

theorem hbd_some_eq_active (b nb : Nat) (s : PoolState)
    (hsd : s.isShuttingDown = false) :
    handleBrowserDisconnect b (some nb) s =
      { s with
          stats :=
            { s.stats with
                errors := s.stats.errors + 1
                restarts := s.stats.restarts + 1 }
          browsers := s.browsers.erase b ++ [nb]
          availableBrowsers := s.availableBrowsers.erase b ++ [nb]
          busyBrowsers := s.busyBrowsers.erase b } := by
  simp [handleBrowserDisconnect, hsd]

theorem getBrowserSeq_ok_of (s : PoolState)
    (hsd : s.isShuttingDown = false) (hne : s.availableBrowsers ≠ []) :
    ∃ b s1, getBrowserSeq s = .ok (b, s1) := by
  rcases hl : s.availableBrowsers.getLast? with _ | b
  · exact absurd (List.getLast?_eq_none_iff.mp hl) hne
  · refine ⟨b, ?_, ?_⟩
    · exact { s with
                availableBrowsers := s.availableBrowsers.dropLast,
                busyBrowsers := insert b s.busyBrowsers,
                stats := { s.stats with
                             activeRequests := s.stats.activeRequests + 1,
                             totalRequests := s.stats.totalRequests + 1 } }
    · simp [getBrowserSeq, tryGetBrowser, hsd, hl]

theorem getBrowserSeq_ok_elim (s : PoolState) (b : Nat) (s1 : PoolState)
    (h : getBrowserSeq s = .ok (b, s1)) :
    tryGetBrowser s = some (b, s1) := by
  unfold getBrowserSeq at h
  by_cases hsd : s.isShuttingDown = true
  · rw [if_pos hsd] at h
    cases h
  · rw [if_neg hsd] at h
    rcases htg : tryGetBrowser s with _ | r
    · simp only [htg] at h
      exact Except.noConfusion h
    · simp only [htg, Except.ok.injEq] at h
      rw [h]


/-! ## Claims -/

/-- C3: for every `getBrowser` call against a pool whose available set
stays empty for longer than the configured acquire timeout, the call
terminates with the timeout rejection (`Timeout waiting for available
browser`) rather than waiting indefinitely: every poll tick inside the
timeout window sees no available browser, so the bounded polling loop
ends in the typed timeout error. -/
theorem acquire_timeout_determinism (availAt : Nat → Bool)
    (timeoutMs : Nat) (h : ∀ t, 100 * t < timeoutMs → availAt t = false) :
    getBrowserPoll availAt timeoutMs =
      .error "Timeout waiting for available browser" := by
  apply acquirePoll_timeout
  intro t ht
  apply h
  omega

theorem acquire_timeout_determinism_witness :
    getBrowserPoll (fun _ => false) 30000 =
      .error "Timeout waiting for available browser" :=
  acquire_timeout_determinism (fun _ => false) 30000 (fun _ _ => rfl)

/-- C4: `extractWithRetry` makes at most `n` attempts; if every attempt
fails, the last attempt's error is surfaced and the delays slept between
attempts are `1000 * k` ms after attempt `k` (linear backoff, summed over
`k = 1 .. n-1`); if the first `m` attempts fail and attempt `m + 1`
succeeds, the run succeeds after `m + 1` attempts having slept
`1000 * 1 + ... + 1000 * m` ms; and a `crawlUrl` whose extraction
capability fails twice and succeeds on the third attempt (retry budget 3)
returns a success result whose elapsed time includes the two retry delays
(`1000 + 2000 = 3000` ms). -/
theorem extraction_retry_policy :
    (∀ (α : Type) (f : Nat → Except String α) (n : Nat),
        (extractWithRetry f n).attemptsMade ≤ n) ∧
    (∀ (α : Type) (f : Nat → Except String α) (e : Nat → String) (n : Nat),
        1 ≤ n → (∀ k, 1 ≤ k → k ≤ n → f k = .error (e k)) →
        extractWithRetry f n =
          ⟨.error (e n), n, ∑ k ∈ Finset.Ico 1 n, 1000 * k⟩) ∧
    (∀ (α : Type) (f : Nat → Except String α) (e : Nat → String) (v : α)
        (m n : Nat),
        m < n → (∀ k, 1 ≤ k → k ≤ m → f k = .error (e k)) →
        f (m + 1) = .ok v →
        extractWithRetry f n =
          ⟨.ok v, m + 1, ∑ k ∈ Finset.Ico 1 (m + 1), 1000 * k⟩) ∧
    (∀ (url : String) (env : CrawlEnv) (pool : PoolState)
        (svc : ServiceStats) (e1 e2 : String) (v : ExtractedContent)
        (md : MarkdownResult) (ctx pg : Nat) (resp : NavResponse),
        isValidUrl url = true → pool.isShuttingDown = false →
        pool.availableBrowsers ≠ [] →
        env.pageOutcome = .opened ctx pg → env.configOk = true →
        env.navOutcome = some resp → resp.respOk = true →
        env.extractOutcome 1 = .error e1 →
        env.extractOutcome 2 = .error e2 →
        env.extractOutcome 3 = .ok v → env.convertOutcome = .ok md →
        (crawlUrl url 3 env pool svc).result =
          .success url v.title md.markdown
            (env.tNav + (3 * env.tAttempt + 3000) + env.tConvert)) := by
  refine ⟨?_, ?_, ?_, ?_⟩
  · exact fun α f n => retryLoop_attempts_le f n 1 "undefined"
  · intro α f e n h1 hf
    have h := retryLoop_all_fail f e n 1 "undefined" h1
      (fun k hk1 hk2 => hf k hk1 (by omega))
    rw [extractWithRetry, h]
    simp only [show 1 + n - 1 = n from by omega]
  · intro α f e v m n hm hf hok
    have h := retryLoop_fail_then_ok f e v m 1 n "undefined" hm
      (fun k hk1 hk2 => hf k hk1 (by omega))
      (by rw [show 1 + m = m + 1 from by omega]; exact hok)
    rw [extractWithRetry, h]
    simp only [show 1 + m = m + 1 from by omega]
  · intro url env pool svc e1 e2 v md ctx pg resp hvalid hsd hne hpage
      hcfg hnav hrespok he1 he2 he3 hconv
    obtain ⟨b, s1, hgb⟩ := getBrowserSeq_ok_of pool hsd hne
    have hretry : extractWithRetry env.extractOutcome 3 =
        ⟨.ok v, 3, 3000⟩ := by
      have h := retryLoop_fail_then_ok env.extractOutcome
        (fun k => if k = 1 then e1 else e2) v 2 1 3 "undefined"
        (by omega)
        (fun k hk1 hk2 => by
          have hk : k = 1 ∨ k = 2 := by omega
          rcases hk with rfl | rfl
          · simpa using he1
          · simpa using he2)
        (by simpa using he3)
      rw [extractWithRetry, h]
      simp only [RetryTrace.mk.injEq]
      exact ⟨trivial, trivial, by decide⟩
    simp only [crawlUrl, crawlTry, hvalid, hgb, hpage, hcfg, hnav,
               hrespok, hretry, hconv, Bool.not_true, not_true_eq_false,
               if_false, Bool.true_eq_false, not_false_eq_true]
    simp only [CrawlResult.success.injEq]
    exact ⟨trivial, trivial, trivial, by omega⟩

theorem extraction_retry_policy_witness :
    (crawlUrl "http://example.com" 3 envRetry poolA svcA).result =
      .success "http://example.com" "T" "md" (5 + (3 * 2 + 3000) + 1) :=
  extraction_retry_policy.2.2.2 "http://example.com" envRetry poolA svcA
    "boom" "boom" ⟨"T", "C"⟩ ⟨"md", 2, 10⟩ 7 9 ⟨true, 200⟩
    (by decide) rfl (by decide) rfl rfl rfl rfl rfl rfl rfl rfl

/-- C5: `crawlMultipleUrls` returns exactly one result per input URL, in
input order, each being whatever the per-URL crawl function produced (so
one URL's failure is a tagged entry that neither aborts the batch nor
affects sibling results); the URLs are processed in consecutive nonempty
waves of size at most the effective concurrency, whose concatenation is
the input list, and exactly one fixed pause is inserted between
consecutive waves (none within a wave, none after the last). -/
theorem batch_crawl_correspondence (crawl : String → CrawlResult)
    (optsConcurrent : Nat) (urls : List String) :
    (crawlMultipleUrls crawl optsConcurrent urls).results = urls.map crawl ∧
    (crawlMultipleUrls crawl optsConcurrent urls).results.length =
      urls.length ∧
    (crawlMultipleUrls crawl optsConcurrent urls).waves.flatten = urls ∧
    (∀ w ∈ (crawlMultipleUrls crawl optsConcurrent urls).waves,
        w ≠ [] ∧ w.length ≤
          min (if optsConcurrent = 0 then 1 else optsConcurrent)
            urls.length) ∧
    (crawlMultipleUrls crawl optsConcurrent urls).pauses =
      (crawlMultipleUrls crawl optsConcurrent urls).waves.length - 1 ∧
    (crawlMultipleUrls crawl optsConcurrent urls).summaryTotal =
      urls.length := by
  cases urls with
  | nil => simp [crawlMultipleUrls, batchLoop]
  | cons x xs =>
      have hc : 1 ≤ min (if optsConcurrent = 0 then 1 else optsConcurrent)
          (x :: xs).length := by
        by_cases h0 : optsConcurrent = 0
        · rw [if_pos h0]
          simp only [List.length_cons]
          omega
        · rw [if_neg h0]
          simp only [List.length_cons]
          omega
      obtain ⟨h1, h2, h3, h4⟩ :=
        batchLoop_spec crawl _ hc ((x :: xs).length) (x :: xs) le_rfl
      rcases hB : batchLoop crawl
          (min (if optsConcurrent = 0 then 1 else optsConcurrent)
            (x :: xs).length)
          (x :: xs).length (x :: xs) with ⟨rs, ws, ps⟩
      rw [hB] at h1 h2 h3 h4
      dsimp only at h1 h2 h3 h4
      have hout : crawlMultipleUrls crawl optsConcurrent (x :: xs) =
          { results := rs, waves := ws, pauses := ps,
            summaryTotal := (x :: xs).length,
            summarySuccessful := (rs.filter CrawlResult.isSuccess).length,
            summaryFailed :=
              (rs.filter (fun r => ¬ r.isSuccess)).length } := by
        simp only [crawlMultipleUrls, hB]
      rw [hout]
      refine ⟨h1, ?_, h2, h3, h4, rfl⟩
      rw [h1]
      simp

/-- C6: every input string the URL validator rejects (not a well-formed
`http` / `https` URL) makes `crawlUrl` return a validation-failure result
with zero elapsed time, leaving the pool state — busy set, available
list, and all pool counters — completely unchanged, with nothing
acquired, no page session opened, and no navigation issued. -/
theorem invalid_url_rejected (url : String) (maxRetries : Nat)
    (env : CrawlEnv) (pool : PoolState) (svc : ServiceStats)
    (h : isValidUrl url = false) :
    (crawlUrl url maxRetries env pool svc).result =
        .failure "Invalid URL provided" url 0 ∧
    (crawlUrl url maxRetries env pool svc).pool = pool ∧
    (crawlUrl url maxRetries env pool svc).log = CrawlLog.empty := by
  refine ⟨?_, ?_, ?_⟩ <;> simp [crawlUrl, crawlTry, h, CrawlLog.empty]

theorem invalid_url_rejected_witness :
    (crawlUrl "not-a-url" 3 envA poolA svcA).result =
        .failure "Invalid URL provided" "not-a-url" 0 ∧
    (crawlUrl "not-a-url" 3 envA poolA svcA).pool = poolA ∧
    (crawlUrl "not-a-url" 3 envA poolA svcA).log = CrawlLog.empty :=
  invalid_url_rejected "not-a-url" 3 envA poolA svcA (by decide)

/-- C9: `releaseBrowser` is a no-op on a handle that is not in the busy
set (available, busy, and all counters unchanged), and therefore
releasing the same handle twice — even with different connectivity
observations — is the same as releasing it once. -/
theorem releaseBrowser_noop_nonbusy (s : PoolState)
    (conn1 conn2 : Nat → Bool) (b : Nat) :
    (b ∉ s.busyBrowsers → releaseBrowser conn1 b s = s) ∧
    releaseBrowser conn2 b (releaseBrowser conn1 b s) =
      releaseBrowser conn1 b s := by
  refine ⟨releaseBrowser_of_not_busy conn1 b s, ?_⟩
  exact releaseBrowser_of_not_busy conn2 b _ (not_busy_after_release conn1 b s)

theorem releaseBrowser_noop_nonbusy_witness :
    releaseBrowser connAll 5 poolA = poolA ∧
    releaseBrowser connAll 5 (releaseBrowser connAll 5 poolA) =
      releaseBrowser connAll 5 poolA :=
  ⟨(releaseBrowser_noop_nonbusy poolA connAll connAll 5).1 (by decide),
   (releaseBrowser_noop_nonbusy poolA connAll connAll 5).2⟩

/-- C10: the service health check's synthetic test crawl uses a `data:`
URL, which the validator rejects (only `http` / `https` are accepted), so
on every invocation the test crawl fails (`testCrawl = false`) while the
orchestrator's total and failed request counters are incremented, and the
report status is `healthy` (no exception escapes in the embedding). -/
theorem healthCheck_data_url (env : CrawlEnv) (pool : PoolState)
    (svc : ServiceStats) :
    isValidUrl healthCheckTestUrl = false ∧
    (serviceHealthCheck env pool svc).1.status = "healthy" ∧
    (serviceHealthCheck env pool svc).1.testCrawl = false ∧
    (serviceHealthCheck env pool svc).2.svc.totalRequests =
      svc.totalRequests + 1 ∧
    (serviceHealthCheck env pool svc).2.svc.failedRequests =
      svc.failedRequests + 1 := by
  have h : isValidUrl healthCheckTestUrl = false := by decide
  refine ⟨h, ?_, ?_, ?_, ?_⟩ <;>
    simp [serviceHealthCheck, crawlUrl, crawlTry, h, updateStats,
          CrawlResult.isSuccess]

/-- C7: once shutdown has begun on a pool, the shutdown call sets the
flag, records a close of every instance while tolerating individual close
failures (the close outcomes cannot influence the result), and clears all
internal sets; every subsequent `getBrowser` fails fast with the
shutting-down error without waiting, and a crawl of any valid URL issued
against the shut-down pool returns a failure immediately — nothing
acquired, no page session, no navigation. -/
theorem shutdown_behavior (closeOk closeOk2 : Nat → Bool) (s : PoolState)
    (url : String) (maxRetries : Nat) (env : CrawlEnv)
    (svc : ServiceStats) (hs : s.isShuttingDown = false) :
    (shutdown closeOk s).state.isShuttingDown = true ∧
    (shutdown closeOk s).state.browsers = [] ∧
    (shutdown closeOk s).state.availableBrowsers = [] ∧
    (shutdown closeOk s).state.busyBrowsers = ∅ ∧
    (shutdown closeOk s).closedBrowsers = s.browsers ∧
    shutdown closeOk2 s = shutdown closeOk s ∧
    (∀ s2 : PoolState, s2.isShuttingDown = true →
        getBrowserSeq s2 = .error "Browser pool is shutting down") ∧
    (isValidUrl url = true →
      (crawlUrl url maxRetries env (shutdown closeOk s).state svc).result =
          .failure "Browser pool is shutting down" url 0 ∧
      (crawlUrl url maxRetries env (shutdown closeOk s).state svc).log =
        CrawlLog.empty) := by
  have hshut : shutdown closeOk s =
      ShutdownResult.mk
        { s with isShuttingDown := true, browsers := [],
                 availableBrowsers := [], busyBrowsers := ∅ }
        s.browsers := by
    unfold shutdown
    rw [if_neg (by simp [hs])]
  have hgb : getBrowserSeq (shutdown closeOk s).state =
      .error "Browser pool is shutting down" := by
    rw [hshut]
    simp [getBrowserSeq]
  refine ⟨by rw [hshut], by rw [hshut], by rw [hshut], by rw [hshut],
          by rw [hshut], ?_, ?_, ?_⟩
  · rw [hshut]
    unfold shutdown
    rw [if_neg (by simp [hs])]
  · intro s2 h2
    simp [getBrowserSeq, h2]
  · intro hvalid
    refine ⟨?_, ?_⟩ <;>
      simp [crawlUrl, crawlTry, hvalid, hgb, CrawlLog.empty]

theorem shutdown_behavior_witness :
    (crawlUrl "http://example.com" 3 envA (shutdown connAll poolA).state
        svcA).result =
      .failure "Browser pool is shutting down" "http://example.com" 0 ∧
    (crawlUrl "http://example.com" 3 envA (shutdown connAll poolA).state
        svcA).log = CrawlLog.empty :=
  (shutdown_behavior connAll connAll poolA "http://example.com" 3 envA
    svcA rfl).2.2.2.2.2.2.2 (by decide)

/-- C8: when a tracked instance disconnects, the crash handler removes it
from the all-instances list, the available list, and the busy set and
increments the error counter; unless the pool is shutting down, a
successfully created replacement (a fresh instance) is added to both the
all-instances list and the available set, the restart counter is
incremented, and the tracked-instance count is restored to its previous
value — with `available + busy` first shrinking by one (replacement
absent) and then restored by exactly the one new instance. -/
theorem disconnect_recovery (s : PoolState) (b nb : Nat)
    (hinv : PoolInv s) (hb : b ∈ s.browsers) (hnb : nb ∉ s.browsers) :
    (∀ repl : Option Nat, (∀ x, repl = some x → x ∉ s.browsers) →
        b ∉ (handleBrowserDisconnect b repl s).browsers ∧
        b ∉ (handleBrowserDisconnect b repl s).availableBrowsers ∧
        b ∉ (handleBrowserDisconnect b repl s).busyBrowsers ∧
        (handleBrowserDisconnect b repl s).stats.errors =
          s.stats.errors + 1) ∧
    (s.isShuttingDown = false →
        nb ∈ (handleBrowserDisconnect b (some nb) s).browsers ∧
        nb ∈ (handleBrowserDisconnect b (some nb) s).availableBrowsers ∧
        (handleBrowserDisconnect b (some nb) s).stats.restarts =
          s.stats.restarts + 1 ∧
        (handleBrowserDisconnect b (some nb) s).browsers.length =
          s.browsers.length ∧
        ((b ∈ s.availableBrowsers ∨ b ∈ s.busyBrowsers) →
          (handleBrowserDisconnect b (some nb) s).availableBrowsers.length
              + (handleBrowserDisconnect b (some nb) s).busyBrowsers.card
            = s.availableBrowsers.length + s.busyBrowsers.card)) ∧
    (s.isShuttingDown = false →
      (b ∈ s.availableBrowsers ∨ b ∈ s.busyBrowsers) →
        (handleBrowserDisconnect b none s).availableBrowsers.length
            + (handleBrowserDisconnect b none s).busyBrowsers.card + 1
          = s.availableBrowsers.length + s.busyBrowsers.card) := by
  have hbb : b ∉ s.browsers.erase b := fun hmem =>
    ((hinv.nodupBrowsers.mem_erase_iff).mp hmem).1 rfl
  have hba : b ∉ s.availableBrowsers.erase b := fun hmem =>
    ((hinv.nodupAvailable.mem_erase_iff).mp hmem).1 rfl
  have hsum : ∀ hmem : b ∈ s.availableBrowsers ∨ b ∈ s.busyBrowsers,
      (s.availableBrowsers.erase b).length
          + (s.busyBrowsers.erase b).card + 1
        = s.availableBrowsers.length + s.busyBrowsers.card := by
    intro hmem
    rcases hmem with hmem | hmem
    · have h1 : (s.availableBrowsers.erase b).length + 1 =
          s.availableBrowsers.length := List.length_erase_add_one hmem
      have h2 : s.busyBrowsers.erase b = s.busyBrowsers :=
        Finset.erase_eq_of_not_mem (hinv.availBusyDisjoint b hmem)
      rw [h2]
      omega
    · have hnav : b ∉ s.availableBrowsers := fun ha =>
        hinv.availBusyDisjoint b ha hmem
      have h1 : s.availableBrowsers.erase b = s.availableBrowsers :=
        List.erase_of_not_mem hnav
      have h2 : (s.busyBrowsers.erase b).card = s.busyBrowsers.card - 1 :=
        Finset.card_erase_of_mem hmem
      have h3 : 1 ≤ s.busyBrowsers.card :=
        Finset.card_pos.mpr ⟨b, hmem⟩
      rw [h1, h2]
      omega
  refine ⟨?_, ?_, ?_⟩
  · intro repl hfresh
    cases repl with
    | none =>
        rw [hbd_none_eq]
        exact ⟨hbb, hba, Finset.not_mem_erase b _, rfl⟩
    | some x =>
        have hbx : b ≠ x := fun h => hfresh x rfl (h ▸ hb)
        by_cases hsd : s.isShuttingDown = true
        · rw [hbd_eq_of_shutdown b (some x) s hsd]
          exact ⟨hbb, hba, Finset.not_mem_erase b _, rfl⟩
        · rw [hbd_some_eq_active b x s (by simpa using hsd)]
          refine ⟨?_, ?_, Finset.not_mem_erase b _, rfl⟩
          · simp only [List.mem_append, List.mem_singleton]
            rintro (h | h)
            · exact hbb h
            · exact hbx h
          · simp only [List.mem_append, List.mem_singleton]
            rintro (h | h)
            · exact hba h
            · exact hbx h
  · intro hsd
    rw [hbd_some_eq_active b nb s hsd]
    refine ⟨by simp, by simp, rfl, ?_, ?_⟩
    · have h1 : (s.browsers.erase b).length + 1 = s.browsers.length :=
        List.length_erase_add_one hb
      simp only [List.length_append, List.length_singleton]
      omega
    · intro hmem
      have := hsum hmem
      simp only [List.length_append, List.length_singleton]
      omega
  · intro hsd hmem
    rw [hbd_none_eq]
    exact hsum hmem

theorem disconnect_recovery_witness :
    2 ∉ (handleBrowserDisconnect 2 (some 9) poolA).browsers ∧
    2 ∉ (handleBrowserDisconnect 2 (some 9) poolA).availableBrowsers ∧
    2 ∉ (handleBrowserDisconnect 2 (some 9) poolA).busyBrowsers ∧
    (handleBrowserDisconnect 2 (some 9) poolA).stats.errors =
      poolA.stats.errors + 1 :=
  (disconnect_recovery poolA 2 9
      ⟨by decide, by decide, by decide, by decide, by decide, by decide⟩
      (by decide) (by decide)).1 (some 9)
    (by rintro x hx; cases hx; decide)

theorem releaseBrowser_eq_push (conn : Nat → Bool) (b : Nat)
    (s : PoolState) (hbusy : b ∈ s.busyBrowsers)
    (hc : ¬ s.isShuttingDown = true ∧ conn b = true) :
    releaseBrowser conn b s =
      { s with
          availableBrowsers := s.availableBrowsers ++ [b]
          busyBrowsers := s.busyBrowsers.erase b
          stats := { s.stats with
                       activeRequests := s.stats.activeRequests - 1 } } := by
  simp only [releaseBrowser]
  rw [if_pos hbusy, if_pos hc]

theorem releaseBrowser_eq_drop (conn : Nat → Bool) (b : Nat)
    (s : PoolState) (hbusy : b ∈ s.busyBrowsers)
    (hc : ¬ (¬ s.isShuttingDown = true ∧ conn b = true)) :
    releaseBrowser conn b s =
      { s with
          busyBrowsers := s.busyBrowsers.erase b
          stats := { s.stats with
                       activeRequests := s.stats.activeRequests - 1 } } := by
  simp only [releaseBrowser]
  rw [if_pos hbusy, if_neg hc]

theorem tryGetBrowser_inv (s : PoolState) (b : Nat) (s1 : PoolState)
    (hinv : PoolInv s) (h : tryGetBrowser s = some (b, s1)) :
    PoolInv s1 ∧ b ∈ s.availableBrowsers ∧ b ∉ s.busyBrowsers ∧
      s1.availableBrowsers = s.availableBrowsers.dropLast ∧
      s1.busyBrowsers = insert b s.busyBrowsers := by
  rcases hl : s.availableBrowsers.getLast? with _ | b0
  · simp only [tryGetBrowser, hl] at h
    exact Option.noConfusion h
  · simp only [tryGetBrowser, hl, Option.some.injEq, Prod.mk.injEq] at h
    obtain ⟨rfl, rfl⟩ := h
    have hsplit : s.availableBrowsers.dropLast ++ [b0] =
        s.availableBrowsers :=
      List.dropLast_append_getLast? b0 (Option.mem_def.mpr hl)
    have hmem : b0 ∈ s.availableBrowsers := by
      rw [← hsplit]
      exact List.mem_append.mpr (.inr (List.mem_singleton.mpr rfl))
    have hnb : b0 ∉ s.busyBrowsers := hinv.availBusyDisjoint b0 hmem
    have hnd : s.availableBrowsers.dropLast.Nodup :=
      hinv.nodupAvailable.sublist (List.dropLast_sublist _)
    have hdisj : ∀ a ∈ s.availableBrowsers.dropLast, a ≠ b0 := by
      have hnd2 : (s.availableBrowsers.dropLast ++ [b0]).Nodup := by
        rw [hsplit]
        exact hinv.nodupAvailable
      obtain ⟨-, -, hd⟩ := List.nodup_append.mp hnd2
      exact fun a ha hab => hd ha (List.mem_singleton.mpr hab)
    refine ⟨⟨hinv.nodupBrowsers, hnd, ?_, ?_, ?_, hinv.capacity⟩,
            hmem, hnb, rfl, rfl⟩
    · intro a ha
      exact hinv.availSubset a ((List.dropLast_sublist _).subset ha)
    · intro a ha
      rcases Finset.mem_insert.mp ha with rfl | ha
      · exact hinv.availSubset a hmem
      · exact hinv.busySubset a ha
    · intro a ha hmem2
      rcases Finset.mem_insert.mp hmem2 with rfl | hmem2
      · exact hdisj a ha rfl
      · exact hinv.availBusyDisjoint a
          ((List.dropLast_sublist _).subset ha) hmem2

theorem stepEvent_inv (s : PoolState) (e : PoolEvent)
    (hinv : PoolInv s) (hwf : wfEvent s e) (htr : trackedEvent s e) :
    PoolInv (stepEvent s e) := by
  cases e with
  | acquire =>
      rcases hg : getBrowserSeq s with err | ⟨b, s1⟩
      · simp only [stepEvent, hg]
        exact hinv
      · simp only [stepEvent, hg]
        exact (tryGetBrowser_inv s b s1 hinv
          (getBrowserSeq_ok_elim s b s1 hg)).1
  | release conn b =>
      simp only [stepEvent]
      by_cases hbusy : b ∈ s.busyBrowsers
      · by_cases hc : ¬ s.isShuttingDown = true ∧ conn b = true
        · rw [releaseBrowser_eq_push conn b s hbusy hc]
          have hnotavail : b ∉ s.availableBrowsers := fun ha =>
            hinv.availBusyDisjoint b ha hbusy
          refine ⟨hinv.nodupBrowsers, ?_, ?_, ?_, ?_, hinv.capacity⟩
          · rw [List.nodup_append]
            exact ⟨hinv.nodupAvailable, List.nodup_singleton b,
                   fun a ha hab =>
                     hnotavail ((List.mem_singleton.mp hab) ▸ ha)⟩
          · intro a ha
            rcases List.mem_append.mp ha with h | h
            · exact hinv.availSubset a h
            · have hab : a = b := List.mem_singleton.mp h
              subst hab
              exact hinv.busySubset a hbusy
          · intro a ha
            exact hinv.busySubset a (Finset.mem_erase.mp ha).2
          · intro a ha
            rcases List.mem_append.mp ha with h | h
            · exact fun hmem =>
                hinv.availBusyDisjoint a h (Finset.mem_erase.mp hmem).2
            · have hab : a = b := List.mem_singleton.mp h
              subst hab
              exact Finset.not_mem_erase a _
        · rw [releaseBrowser_eq_drop conn b s hbusy hc]
          refine ⟨hinv.nodupBrowsers, hinv.nodupAvailable,
                  hinv.availSubset, ?_, ?_, hinv.capacity⟩
          · intro a ha
            exact hinv.busySubset a (Finset.mem_erase.mp ha).2
          · intro a ha hmem
            exact hinv.availBusyDisjoint a ha (Finset.mem_erase.mp hmem).2
      · rw [releaseBrowser_of_not_busy conn b s hbusy]
        exact hinv
  | disconnect b repl =>
      have hfresh : ∀ x, repl = some x → x ∉ s.browsers := hwf
      have hb : b ∈ s.browsers := htr
      simp only [stepEvent]
      have hsubB := List.erase_sublist b s.browsers
      have hsubA := List.erase_sublist b s.availableBrowsers
      have hcap := hinv.capacity
      have hbase : PoolInv
          { s with
              stats := { s.stats with errors := s.stats.errors + 1 }
              browsers := s.browsers.erase b
              availableBrowsers := s.availableBrowsers.erase b
              busyBrowsers := s.busyBrowsers.erase b } := by
        refine ⟨hinv.nodupBrowsers.erase b, hinv.nodupAvailable.erase b,
                ?_, ?_, ?_, ?_⟩
        · intro a ha
          obtain ⟨hne, hmem⟩ := (hinv.nodupAvailable.mem_erase_iff).mp ha
          exact (hinv.nodupBrowsers.mem_erase_iff).mpr
            ⟨hne, hinv.availSubset a hmem⟩
        · intro a ha
          obtain ⟨hne, hmem⟩ := Finset.mem_erase.mp ha
          exact (hinv.nodupBrowsers.mem_erase_iff).mpr
            ⟨hne, hinv.busySubset a hmem⟩
        · intro a ha hmem
          exact hinv.availBusyDisjoint a (hsubA.subset ha)
            (Finset.mem_erase.mp hmem).2
        · exact hsubB.length_le.trans hinv.capacity
      rcases repl with _ | nb
      · rw [hbd_none_eq]
        exact hbase
      · by_cases hsd : s.isShuttingDown = true
        · rw [hbd_eq_of_shutdown b (some nb) s hsd]
          exact hbase
        · rw [hbd_some_eq_active b nb s (by simpa using hsd)]
          have hnb : nb ∉ s.browsers := hfresh nb rfl
          have hnbB : nb ∉ s.browsers.erase b := fun h =>
            hnb (hsubB.subset h)
          have hnbA : nb ∉ s.availableBrowsers.erase b := fun h =>
            hnb (hinv.availSubset nb (hsubA.subset h))
          refine ⟨?_, ?_, ?_, ?_, ?_, ?_⟩
          · rw [List.nodup_append]
            exact ⟨hinv.nodupBrowsers.erase b, List.nodup_singleton nb,
                   fun a ha hab => hnbB ((List.mem_singleton.mp hab) ▸ ha)⟩
          · rw [List.nodup_append]
            exact ⟨hinv.nodupAvailable.erase b, List.nodup_singleton nb,
                   fun a ha hab => hnbA ((List.mem_singleton.mp hab) ▸ ha)⟩
          · intro a ha
            rcases List.mem_append.mp ha with h | h
            · obtain ⟨hne, hmem⟩ := (hinv.nodupAvailable.mem_erase_iff).mp h
              exact List.mem_append.mpr
                (.inl ((hinv.nodupBrowsers.mem_erase_iff).mpr
                  ⟨hne, hinv.availSubset a hmem⟩))
            · exact List.mem_append.mpr (.inr h)
          · intro a ha
            obtain ⟨hne, hmem⟩ := Finset.mem_erase.mp ha
            exact List.mem_append.mpr
              (.inl ((hinv.nodupBrowsers.mem_erase_iff).mpr
                ⟨hne, hinv.busySubset a hmem⟩))
          · intro a ha hmem
            rcases List.mem_append.mp ha with h | h
            · exact hinv.availBusyDisjoint a
                ((hinv.nodupAvailable.mem_erase_iff).mp h).2
                (Finset.mem_erase.mp hmem).2
            · have : nb ∈ s.busyBrowsers :=
                (List.mem_singleton.mp h) ▸ (Finset.mem_erase.mp hmem).2
              exact hnb (hinv.busySubset nb this)
          · simp only [List.length_append, List.length_singleton]
            have := List.length_erase_add_one hb
            omega
  | setShutdown =>
      exact ⟨hinv.nodupBrowsers, hinv.nodupAvailable, hinv.availSubset,
             hinv.busySubset, hinv.availBusyDisjoint, hinv.capacity⟩
  | clearAll =>
      refine ⟨List.nodup_nil, List.nodup_nil, ?_, ?_, ?_, Nat.zero_le _⟩
      · exact fun a ha => absurd ha (List.not_mem_nil a)
      · exact fun a ha => absurd ha (Finset.not_mem_empty a)
      · exact fun a ha => absurd ha (List.not_mem_nil a)

theorem runEvents_inv : ∀ (es : List PoolEvent) (s : PoolState),
    WfTrace s es → TrackedTrace s es → PoolInv s →
      PoolInv (runEvents s es) := by
  intro es
  induction es with
  | nil =>
      intro s _ _ hinv
      exact hinv
  | cons e es ih =>
      intro s hwf htr hinv
      cases hwf with
      | cons _ _ _ hwfe hrest =>
          cases htr with
          | cons _ _ _ htre hrest2 =>
              exact ih (stepEvent s e) hrest hrest2
                (stepEvent_inv s e hinv hwfe htre)

theorem tryGetBrowser_partition (s : PoolState) (b : Nat)
    (s1 : PoolState) (hp : PoolPartition s)
    (h : tryGetBrowser s = some (b, s1)) : PoolPartition s1 := by
  rcases hl : s.availableBrowsers.getLast? with _ | b0
  · simp only [tryGetBrowser, hl] at h
    exact Option.noConfusion h
  · simp only [tryGetBrowser, hl, Option.some.injEq, Prod.mk.injEq] at h
    obtain ⟨rfl, rfl⟩ := h
    have hsplit : s.availableBrowsers.dropLast ++ [b0] =
        s.availableBrowsers :=
      List.dropLast_append_getLast? b0 (Option.mem_def.mpr hl)
    have hmem : b0 ∈ s.availableBrowsers := by
      rw [← hsplit]
      exact List.mem_append.mpr (.inr (List.mem_singleton.mpr rfl))
    have hnd : s.availableBrowsers.dropLast.Nodup :=
      hp.nodupAvailable.sublist (List.dropLast_sublist _)
    have hdisj : ∀ a ∈ s.availableBrowsers.dropLast, a ≠ b0 := by
      have hnd2 : (s.availableBrowsers.dropLast ++ [b0]).Nodup := by
        rw [hsplit]
        exact hp.nodupAvailable
      obtain ⟨-, -, hd⟩ := List.nodup_append.mp hnd2
      exact fun a ha hab => hd ha (List.mem_singleton.mpr hab)
    refine ⟨hp.nodupBrowsers, hnd, ?_, ?_, ?_⟩
    · intro a ha
      exact hp.availSubset a ((List.dropLast_sublist _).subset ha)
    · intro a ha
      rcases Finset.mem_insert.mp ha with rfl | ha
      · exact hp.availSubset a hmem
      · exact hp.busySubset a ha
    · intro a ha hmem2
      rcases Finset.mem_insert.mp hmem2 with rfl | hmem2
      · exact hdisj a ha rfl
      · exact hp.availBusyDisjoint a
          ((List.dropLast_sublist _).subset ha) hmem2

theorem stepEvent_partition (s : PoolState) (e : PoolEvent)
    (hp : PoolPartition s) (hwf : wfEvent s e) :
    PoolPartition (stepEvent s e) := by
  cases e with
  | acquire =>
      rcases hg : getBrowserSeq s with err | ⟨b, s1⟩
      · simp only [stepEvent, hg]
        exact hp
      · simp only [stepEvent, hg]
        exact tryGetBrowser_partition s b s1 hp
          (getBrowserSeq_ok_elim s b s1 hg)
  | release conn b =>
      simp only [stepEvent]
      by_cases hbusy : b ∈ s.busyBrowsers
      · by_cases hc : ¬ s.isShuttingDown = true ∧ conn b = true
        · rw [releaseBrowser_eq_push conn b s hbusy hc]
          have hnotavail : b ∉ s.availableBrowsers := fun ha =>
            hp.availBusyDisjoint b ha hbusy
          refine ⟨hp.nodupBrowsers, ?_, ?_, ?_, ?_⟩
          · rw [List.nodup_append]
            exact ⟨hp.nodupAvailable, List.nodup_singleton b,
                   fun a ha hab =>
                     hnotavail ((List.mem_singleton.mp hab) ▸ ha)⟩
          · intro a ha
            rcases List.mem_append.mp ha with h | h
            · exact hp.availSubset a h
            · have hab : a = b := List.mem_singleton.mp h
              subst hab
              exact hp.busySubset a hbusy
          · intro a ha
            exact hp.busySubset a (Finset.mem_erase.mp ha).2
          · intro a ha
            rcases List.mem_append.mp ha with h | h
            · exact fun hmem =>
                hp.availBusyDisjoint a h (Finset.mem_erase.mp hmem).2
            · have hab : a = b := List.mem_singleton.mp h
              subst hab
              exact Finset.not_mem_erase a _
        · rw [releaseBrowser_eq_drop conn b s hbusy hc]
          refine ⟨hp.nodupBrowsers, hp.nodupAvailable,
                  hp.availSubset, ?_, ?_⟩
          · intro a ha
            exact hp.busySubset a (Finset.mem_erase.mp ha).2
          · intro a ha hmem
            exact hp.availBusyDisjoint a ha (Finset.mem_erase.mp hmem).2
      · rw [releaseBrowser_of_not_busy conn b s hbusy]
        exact hp
  | disconnect b repl =>
      have hfresh : ∀ x, repl = some x → x ∉ s.browsers := hwf
      simp only [stepEvent]
      have hsubB := List.erase_sublist b s.browsers
      have hsubA := List.erase_sublist b s.availableBrowsers
      have hbase : PoolPartition
          { s with
              stats := { s.stats with errors := s.stats.errors + 1 }
              browsers := s.browsers.erase b
              availableBrowsers := s.availableBrowsers.erase b
              busyBrowsers := s.busyBrowsers.erase b } := by
        refine ⟨hp.nodupBrowsers.erase b, hp.nodupAvailable.erase b,
                ?_, ?_, ?_⟩
        · intro a ha
          obtain ⟨hne, hmem⟩ := (hp.nodupAvailable.mem_erase_iff).mp ha
          exact (hp.nodupBrowsers.mem_erase_iff).mpr
            ⟨hne, hp.availSubset a hmem⟩
        · intro a ha
          obtain ⟨hne, hmem⟩ := Finset.mem_erase.mp ha
          exact (hp.nodupBrowsers.mem_erase_iff).mpr
            ⟨hne, hp.busySubset a hmem⟩
        · intro a ha hmem
          exact hp.availBusyDisjoint a (hsubA.subset ha)
            (Finset.mem_erase.mp hmem).2
      rcases repl with _ | nb
      · rw [hbd_none_eq]
        exact hbase
      · by_cases hsd : s.isShuttingDown = true
        · rw [hbd_eq_of_shutdown b (some nb) s hsd]
          exact hbase
        · rw [hbd_some_eq_active b nb s (by simpa using hsd)]
          have hnb : nb ∉ s.browsers := hfresh nb rfl
          have hnbB : nb ∉ s.browsers.erase b := fun h =>
            hnb (hsubB.subset h)
          have hnbA : nb ∉ s.availableBrowsers.erase b := fun h =>
            hnb (hp.availSubset nb (hsubA.subset h))
          refine ⟨?_, ?_, ?_, ?_, ?_⟩
          · rw [List.nodup_append]
            exact ⟨hp.nodupBrowsers.erase b, List.nodup_singleton nb,
                   fun a ha hab => hnbB ((List.mem_singleton.mp hab) ▸ ha)⟩
          · rw [List.nodup_append]
            exact ⟨hp.nodupAvailable.erase b, List.nodup_singleton nb,
                   fun a ha hab => hnbA ((List.mem_singleton.mp hab) ▸ ha)⟩
          · intro a ha
            rcases List.mem_append.mp ha with h | h
            · obtain ⟨hne, hmem⟩ := (hp.nodupAvailable.mem_erase_iff).mp h
              exact List.mem_append.mpr
                (.inl ((hp.nodupBrowsers.mem_erase_iff).mpr
                  ⟨hne, hp.availSubset a hmem⟩))
            · exact List.mem_append.mpr (.inr h)
          · intro a ha
            obtain ⟨hne, hmem⟩ := Finset.mem_erase.mp ha
            exact List.mem_append.mpr
              (.inl ((hp.nodupBrowsers.mem_erase_iff).mpr
                ⟨hne, hp.busySubset a hmem⟩))
          · intro a ha hmem
            rcases List.mem_append.mp ha with h | h
            · exact hp.availBusyDisjoint a
                ((hp.nodupAvailable.mem_erase_iff).mp h).2
                (Finset.mem_erase.mp hmem).2
            · have : nb ∈ s.busyBrowsers :=
                (List.mem_singleton.mp h) ▸ (Finset.mem_erase.mp hmem).2
              exact hnb (hp.busySubset nb this)
  | setShutdown =>
      exact ⟨hp.nodupBrowsers, hp.nodupAvailable, hp.availSubset,
             hp.busySubset, hp.availBusyDisjoint⟩
  | clearAll =>
      refine ⟨List.nodup_nil, List.nodup_nil, ?_, ?_, ?_⟩
      · exact fun a ha => absurd ha (List.not_mem_nil a)
      · exact fun a ha => absurd ha (Finset.not_mem_empty a)
      · exact fun a ha => absurd ha (List.not_mem_nil a)

theorem runEvents_partition : ∀ (es : List PoolEvent) (s : PoolState),
    WfTrace s es → PoolPartition s → PoolPartition (runEvents s es) := by
  intro es
  induction es with
  | nil =>
      intro s _ hp
      exact hp
  | cons e es ih =>
      intro s hwf hp
      cases hwf with
      | cons _ _ _ hwfe hrest =>
          exact ih (stepEvent s e) hrest (stepEvent_partition s e hp hwfe)

/-- C2 (amended): along every well-formed trace of pool events (acquires,
releases, disconnect handling — including handler invocations for
browsers the pool no longer tracks — and shutdown phases) from a state
satisfying the pool invariant, the partition facts hold at every
observable point: the available list and the busy set are duplicate-free
and disjoint and both contained in the tracked-instance list (each
instance is in exactly one of available / busy / removed), and two
consecutive acquires never hand out the same instance nor one already
busy.  The capacity bound `|instances| ≤ poolSize` additionally holds
whenever every disconnect event targets a still-tracked instance
(`TrackedTrace`); the runtime does not guarantee that condition, and the
counterexample shows a reachable double-invocation of the crash handler
permanently exceeding the configured capacity. -/
theorem pool_partition_invariant (s : PoolState) (es : List PoolEvent)
    (hinv : PoolInv s) (hwf : WfTrace s es) :
    PoolPartition (runEvents s es) ∧
    (TrackedTrace s es → PoolInv (runEvents s es)) ∧
    (∀ (t t1 t2 : PoolState) (b1 b2 : Nat), PoolInv t →
        tryGetBrowser t = some (b1, t1) →
        tryGetBrowser t1 = some (b2, t2) →
        b1 ∉ t.busyBrowsers ∧ b2 ∉ t1.busyBrowsers ∧ b1 ≠ b2) := by
  refine ⟨runEvents_partition es s hwf hinv.toPartition,
          fun htr => runEvents_inv es s hwf htr hinv, ?_⟩
  intro t t1 t2 b1 b2 ht h1 h2
  obtain ⟨hinv1, hmem1, hnb1, havail1, hbusy1⟩ :=
    tryGetBrowser_inv t b1 t1 ht h1
  obtain ⟨hinv2, hmem2, hnb2, havail2, hbusy2⟩ :=
    tryGetBrowser_inv t1 b2 t2 hinv1 h2
  refine ⟨hnb1, hnb2, fun hEq => ?_⟩
  apply hnb2
  rw [← hEq, hbusy1]
  exact Finset.mem_insert_self b1 _

/-- A short concrete well-formed event trace used by the witness. -/
def traceA : List PoolEvent :=
  [.acquire, .release connAll 2, .disconnect 1 (some 3),
   .setShutdown, .clearAll]

theorem pool_partition_invariant_witness :
    PoolPartition (runEvents poolA traceA) ∧
    PoolInv (runEvents poolA traceA) := by
  have h := pool_partition_invariant poolA traceA
    ⟨by decide, by decide, by decide, by decide, by decide, by decide⟩
    (WfTrace.cons _ _ _ trivial
      (WfTrace.cons _ _ _ trivial
        (WfTrace.cons _ _ _
          (by rintro x hx; cases hx; decide)
          (WfTrace.cons _ _ _ trivial
            (WfTrace.cons _ _ _ trivial (WfTrace.nil _))))))
  refine ⟨h.1, h.2.1 ?_⟩
  exact TrackedTrace.cons _ _ _ trivial
    (TrackedTrace.cons _ _ _ trivial
      (TrackedTrace.cons _ _ _ (by unfold trackedEvent; decide)
        (TrackedTrace.cons _ _ _ trivial
          (TrackedTrace.cons _ _ _ trivial (TrackedTrace.nil _)))))

/-- A one-browser pool at its configured capacity, used by the capacity
counterexample. -/
def poolC : PoolState := ⟨1, [1], [1], ∅, true, false, ⟨0, 0, 0, 0⟩⟩

/-- C2 counterexample: the replacement branch of
`handleBrowserDisconnect` (part_003 lines 149-159) does not re-check that
the disconnected browser is still tracked, and `healthCheck` (line 177)
routes a failing browser through the handler while the browser's own
`disconnected` event can re-invoke it afterwards.  Running the handler
twice for browser 1 on a capacity-1 pool — first while tracked
(replacement 2), then untracked (replacement 3) — leaves two tracked
instances: both handler invocations have completed, so the configured
capacity is exceeded by an unmatched replacement, not transiently during
a single replacement. -/
theorem pool_partition_counterexample :
    poolC.poolSize = 1 ∧ poolC.browsers.length = 1 ∧
    (handleBrowserDisconnect 1 (some 3)
        (handleBrowserDisconnect 1 (some 2) poolC)).browsers = [2, 3] ∧
    ¬ ((handleBrowserDisconnect 1 (some 3)
          (handleBrowserDisconnect 1 (some 2) poolC)).browsers.length ≤
        (handleBrowserDisconnect 1 (some 3)
          (handleBrowserDisconnect 1 (some 2) poolC)).poolSize) := by
  exact ⟨rfl, rfl, by decide, by decide⟩

theorem releaseBrowser_busy_of_mem (conn : Nat → Bool) (b : Nat)
    (s : PoolState) (h : b ∈ s.busyBrowsers) :
    (releaseBrowser conn b s).busyBrowsers = s.busyBrowsers.erase b := by
  by_cases hc : ¬ s.isShuttingDown = true ∧ conn b = true
  · rw [releaseBrowser_eq_push conn b s h hc]
  · rw [releaseBrowser_eq_drop conn b s h hc]

/-- The cleanup-relevant shape of the working state at the exit of
`crawlUrl`'s `try` block: either no browser was acquired (nothing opened,
pool untouched), or exactly one browser was acquired and not yet
released, with the page and context local variables assigned exactly when
`getPage` returned normally. -/
def cleanupChar (env : CrawlEnv) (pool : PoolState) (t : TryState) :
    Prop :=
  (t.browser = none ∧ t.page = none ∧ t.context = none ∧ t.pool = pool ∧
   t.log.acquired = [] ∧ t.log.released = [] ∧
   t.log.openedContexts = [] ∧ t.log.openedPages = [] ∧
   t.log.closedContexts = [] ∧ t.log.closedPages = []) ∨
  (∃ b s1, getBrowserSeq pool = Except.ok (b, s1) ∧
    t.browser = some b ∧ t.pool = s1 ∧
    t.log.acquired = [b] ∧ t.log.released = [] ∧
    t.log.closedContexts = [] ∧ t.log.closedPages = [] ∧
    ((t.page = none ∧ t.context = none ∧
        ∀ ctx pg, env.pageOutcome ≠ PageOutcome.opened ctx pg) ∨
     (∃ ctx pg, env.pageOutcome = PageOutcome.opened ctx pg ∧
        t.page = some pg ∧ t.context = some ctx ∧
        t.log.openedContexts = [ctx] ∧ t.log.openedPages = [pg])))

theorem crawlTry_char (url : String) (maxRetries : Nat) (env : CrawlEnv)
    (pool : PoolState) :
    cleanupChar env pool
      ((crawlTry url maxRetries env
          ⟨pool, none, none, none, CrawlLog.empty, 0⟩).2) := by
  unfold cleanupChar crawlTry
  dsimp only
  split
  · exact Or.inl ⟨rfl, rfl, rfl, rfl, rfl, rfl, rfl, rfl, rfl, rfl⟩
  · split
    next e heq =>
      exact Or.inl ⟨rfl, rfl, rfl, rfl, rfl, rfl, rfl, rfl, rfl, rfl⟩
    next b s1 heq =>
      refine Or.inr ⟨b, s1, heq, ?_⟩
      split
      next hpo =>
        exact ⟨rfl, rfl, rfl, rfl, rfl, rfl,
               Or.inl ⟨rfl, rfl, fun ctx pg h => by rw [hpo] at h; cases h⟩⟩
      next ctx hpo =>
        exact ⟨rfl, rfl, rfl, rfl, rfl, rfl,
               Or.inl ⟨rfl, rfl, fun ctx2 pg h => by rw [hpo] at h; cases h⟩⟩
      next ctx pg hpo =>
        exact ⟨rfl, rfl, rfl, rfl, rfl, rfl,
               Or.inl ⟨rfl, rfl, fun ctx2 pg2 h => by rw [hpo] at h; cases h⟩⟩
      next ctx pg hpo =>
        split
        · exact ⟨rfl, rfl, rfl, rfl, rfl, rfl,
                 Or.inr ⟨ctx, pg, hpo, rfl, rfl, rfl, rfl⟩⟩
        · split
          next hnav =>
            exact ⟨rfl, rfl, rfl, rfl, rfl, rfl,
                   Or.inr ⟨ctx, pg, hpo, rfl, rfl, rfl, rfl⟩⟩
          next resp hnav =>
            split
            · exact ⟨rfl, rfl, rfl, rfl, rfl, rfl,
                     Or.inr ⟨ctx, pg, hpo, rfl, rfl, rfl, rfl⟩⟩
            · split
              next er hex =>
                exact ⟨rfl, rfl, rfl, rfl, rfl, rfl,
                       Or.inr ⟨ctx, pg, hpo, rfl, rfl, rfl, rfl⟩⟩
              next c hex =>
                split
                next er2 hcv =>
                  exact ⟨rfl, rfl, rfl, rfl, rfl, rfl,
                         Or.inr ⟨ctx, pg, hpo, rfl, rfl, rfl, rfl⟩⟩
                next md hcv =>
                  exact ⟨rfl, rfl, rfl, rfl, rfl, rfl,
                         Or.inr ⟨ctx, pg, hpo, rfl, rfl, rfl, rfl⟩⟩

/-- C1 (amended): on every `crawlUrl` invocation, whatever the outcome,
the invocation's own acquire-and-release is balanced: the browser it
acquired (if any) is released exactly once — never twice — and the busy
set at the end of the invocation's `finally` block equals the busy set
before the call, so the invocation itself strands nothing; and whenever
page-session creation returned normally (`getPage` produced the
context/page pair), the page and the context are each closed exactly
once.  Two leaks escape this per-invocation cleanup and refute the claim
as stated (see the counterexample): when `getPage` throws partway, the
partially created context/page is never closed; and a timed-out acquire
leaves an orphaned, never-cancelled polling loop (`orphanedPollFire`)
which, once a browser is later freed, pops it into the busy set with no
holder — an instance left busy that no invocation will release. -/
theorem crawl_cleanup (url : String) (maxRetries : Nat) (env : CrawlEnv)
    (pool : PoolState) (svc : ServiceStats) (hinv : PoolInv pool) :
    (crawlUrl url maxRetries env pool svc).log.released =
      (crawlUrl url maxRetries env pool svc).log.acquired ∧
    (crawlUrl url maxRetries env pool svc).log.acquired.length ≤ 1 ∧
    (crawlUrl url maxRetries env pool svc).pool.busyBrowsers =
      pool.busyBrowsers ∧
    (∀ ctx pg, env.pageOutcome = PageOutcome.opened ctx pg →
        (crawlUrl url maxRetries env pool svc).log.closedContexts =
          (crawlUrl url maxRetries env pool svc).log.openedContexts ∧
        (crawlUrl url maxRetries env pool svc).log.closedPages =
          (crawlUrl url maxRetries env pool svc).log.openedPages) := by
  have hchar := crawlTry_char url maxRetries env pool
  rcases hr : crawlTry url maxRetries env
      ⟨pool, none, none, none, CrawlLog.empty, 0⟩ with ⟨res, t⟩
  rw [hr] at hchar
  unfold cleanupChar at hchar
  dsimp only at hchar
  rcases hchar with
      ⟨hbr, hpg, hcx, hpool, hacq, hrel, hoc, hop, hcc, hcp⟩ |
      ⟨b, s1, hg, hbr, hpool, hacq, hrel, hcc, hcp, hsub⟩
  · have hout : (crawlUrl url maxRetries env pool svc).log = t.log ∧
        (crawlUrl url maxRetries env pool svc).pool = t.pool := by
      unfold crawlUrl
      dsimp only
      rw [hr]
      dsimp only
      simp only [hpg, hcx, hbr]
      cases res <;> exact ⟨rfl, rfl⟩
    rw [hout.1, hout.2, hpool, hrel, hacq]
    refine ⟨rfl, by simp, rfl, ?_⟩
    intro ctx pg hpo
    rw [hcc, hcp, hoc, hop]
    exact ⟨rfl, rfl⟩
  · have ht2 := getBrowserSeq_ok_elim pool b s1 hg
    obtain ⟨hinv1, hmem, hnbusy, -, hbusyeq⟩ :=
      tryGetBrowser_inv pool b s1 hinv ht2
    have hbusyfinal :
        (releaseBrowser env.connected b s1).busyBrowsers =
          pool.busyBrowsers := by
      rw [releaseBrowser_busy_of_mem env.connected b s1
            (by rw [hbusyeq]; exact Finset.mem_insert_self b _),
          hbusyeq, Finset.erase_insert hnbusy]
    rcases hsub with ⟨hpg, hcx, hnotopened⟩ |
        ⟨ctx, pg, hpo, hpg, hcx, hoc, hop⟩
    · have hout : (crawlUrl url maxRetries env pool svc).log =
          { t.log with released := t.log.released ++ [b] } ∧
          (crawlUrl url maxRetries env pool svc).pool =
            releaseBrowser env.connected b t.pool := by
        unfold crawlUrl
        dsimp only
        rw [hr]
        dsimp only
        simp only [hpg, hcx, hbr]
        cases res <;> exact ⟨rfl, rfl⟩
      rw [hout.1, hout.2, hpool]
      refine ⟨?_, ?_, hbusyfinal, ?_⟩
      · simp [hrel, hacq]
      · simp [hacq]
      · intro ctx pg hpo
        exact absurd hpo (hnotopened ctx pg)
    · have hout : (crawlUrl url maxRetries env pool svc).log =
          { t.log with
              closedPages := t.log.closedPages ++ [pg]
              closedContexts := t.log.closedContexts ++ [ctx]
              released := t.log.released ++ [b] } ∧
          (crawlUrl url maxRetries env pool svc).pool =
            releaseBrowser env.connected b t.pool := by
        unfold crawlUrl
        dsimp only
        rw [hr]
        dsimp only
        simp only [hpg, hcx, hbr]
        cases res <;> exact ⟨rfl, rfl⟩
      rw [hout.1, hout.2, hpool]
      refine ⟨?_, ?_, hbusyfinal, ?_⟩
      · simp [hrel, hacq]
      · simp [hacq]
      · intro ctx2 pg2 hpo2
        constructor
        · simp [hcc, hoc]
        · simp [hcp, hop]

theorem crawl_cleanup_witness :
    (crawlUrl "http://example.com" 3 envA poolA svcA).log.released =
      (crawlUrl "http://example.com" 3 envA poolA svcA).log.acquired ∧
    (crawlUrl "http://example.com" 3 envA poolA svcA).log.acquired.length
      ≤ 1 ∧
    (crawlUrl "http://example.com" 3 envA poolA svcA).pool.busyBrowsers =
      poolA.busyBrowsers := by
  have h := crawl_cleanup "http://example.com" 3 envA poolA svcA
    ⟨by decide, by decide, by decide, by decide, by decide, by decide⟩
  exact ⟨h.1, h.2.1, h.2.2.1⟩

/-- C1 counterexample, refuting the claim as stated on two distinct
paths.  First, when `getPage` throws after the browser context has been
created but before the page exists (modelled by
`envLeak.pageOutcome = PageOutcome.pageFail 7`), the `crawlUrl`
invocation opens browser context `7` and never closes it, so the page
session opened by the invocation is not closed (the browser itself is
still released exactly once).  Second, against `poolT` — whose only
browser `5` is checked out by another holder — an acquire times out and
the invocation acquires and releases nothing; but `getBrowser` never
cancels its polling chain (part_003 lines 79-98), so after the other
holder releases browser `5`, the orphaned poll (`orphanedPollFire`) pops
it back into the busy set while its `resolve()` no-ops on the settled
promise: instance `5` is busy with no holder, and no invocation will
ever release it. -/
theorem crawl_cleanup_counterexample :
    (crawlUrl "http://example.com" 3 envLeak poolA
        svcA).log.openedContexts = [7] ∧
    (crawlUrl "http://example.com" 3 envLeak poolA
        svcA).log.closedContexts = [] ∧
    ¬ (∀ c ∈ (crawlUrl "http://example.com" 3 envLeak poolA
          svcA).log.openedContexts,
        c ∈ (crawlUrl "http://example.com" 3 envLeak poolA
          svcA).log.closedContexts) ∧
    (crawlUrl "http://example.com" 3 envA poolT svcA).result =
      .failure "Timeout waiting for available browser"
        "http://example.com" 0 ∧
    (crawlUrl "http://example.com" 3 envA poolT svcA).log.acquired = [] ∧
    (crawlUrl "http://example.com" 3 envA poolT svcA).log.released = [] ∧
    5 ∈ (orphanedPollFire (releaseBrowser connAll 5
          (crawlUrl "http://example.com" 3 envA poolT
            svcA).pool)).busyBrowsers ∧
    (orphanedPollFire (releaseBrowser connAll 5
        (crawlUrl "http://example.com" 3 envA poolT
          svcA).pool)).availableBrowsers = [] := by
  refine ⟨by decide, by decide, by decide, by decide, by decide,
          by decide, by decide, by decide⟩

end FirecrawlLite
